import Mathlib

/-!
Shallow embedding of the challenge tracking and forecasting engine of
`SportChallangeDerevo_upgrade_bot.py` (class `FitnessChallengeBot` plus the
decision core of `send_daily_reminders`).

Modelling conventions:
* Instants are integers counting seconds; `datetime.now()` becomes an explicit
  `now : Int` parameter (the spec's Time Provider).  `timedelta(days=d)` is
  `d * 86400` seconds, and Python's `timedelta.days` (floor of the span in
  days) is `Int.fdiv _ 86400`.
* The `'%Y-%m-%d'` calendar-date key is modelled by `dateOf`, which renders the
  day index of the instant; distinct calendar days give distinct strings.
* Python dicts (`self.user_data`, `user_data['challenges']`,
  `challenge['daily_records']`) are association lists keyed by strings, with
  dict semantics: lookup finds the first matching key, assignment replaces the
  first matching entry or appends a fresh one.
* Python real arithmetic (`total_reps / days`, averages, percentages) is
  modelled over `ℚ`.
* File persistence (`save_data`) and message delivery are external I/O and are
  outside the engine model, per the spec's scope.
-/

/-- Association-list lookup with Python-dict semantics (`d[k]` / `k in d`). -/
def alistLookup {α : Type} : List (String × α) → String → Option α
  | [], _ => none
  | (k1, v) :: rest, k => if k1 = k then some v else alistLookup rest k

/-- `d.get(k, dflt)`. -/
def alistLookupD {α : Type} (l : List (String × α)) (k : String) (dflt : α) : α :=
  (alistLookup l k).getD dflt

/-- Python-dict assignment `d[k] = v`: replace the first entry with key `k`,
or append a fresh entry when the key is absent. -/
def alistSet {α : Type} : List (String × α) → String → α → List (String × α)
  | [], k, v => [(k, v)]
  | (k1, v1) :: rest, k, v =>
      if k1 = k then (k, v) :: rest else (k1, v1) :: alistSet rest k v

/-- Sum of the values of a dict, `sum(d.values())`. -/
def valuesSum (l : List (String × Int)) : Int :=
  (l.map (fun p => p.2)).sum

/-- The calendar-date key `datetime.now().strftime('%Y-%m-%d')`: rendered day
index of the instant (each calendar day yields one distinct string). -/
def dateOf (t : Int) : String :=
  toString (Int.fdiv t 86400)

/-- `class ExerciseType(Enum)`. -/
inductive ExerciseType
  | pushups
  | squats
  | pullups
  | situps
  | burpees
  | planks
deriving DecidableEq

/-- `ExerciseType.name` of each member (`PUSHUPS`, ...). -/
def ExerciseType.nameStr : ExerciseType → String
  | .pushups => "PUSHUPS"
  | .squats => "SQUATS"
  | .pullups => "PULLUPS"
  | .situps => "SITUPS"
  | .burpees => "BURPEES"
  | .planks => "PLANKS"

/-- `ExerciseType.value` of each member (`"push-ups"`, ...). -/
def ExerciseType.value : ExerciseType → String
  | .pushups => "push-ups"
  | .squats => "squats"
  | .pullups => "pull-ups"
  | .situps => "sit-ups"
  | .burpees => "burpees"
  | .planks => "planks (seconds)"

/-- `class ChallengeStatus(Enum)`. -/
inductive ChallengeStatus
  | active
  | completed
  | paused
  | failed
deriving DecidableEq

/-- The challenge record built by `create_challenge` and mutated by
`add_reps` (`completion_date` is absent until first set). -/
structure Challenge where
  id : String
  exercise : String
  total_reps : Int
  target_days : Int
  current_reps : Int
  start_date : Int
  target_date : Int
  status : ChallengeStatus
  daily_records : List (String × Int)
  daily_target : ℚ
  completion_date : Option Int
deriving DecidableEq

/-- One user's entry in `self.user_data`. -/
structure UserData where
  challenges : List (String × Challenge)
  timezone : String
  reminder_morning : String
  reminder_evening : String
  reminders_enabled : Bool
deriving DecidableEq

/-- `self.user_data`: userId, keyed to that user's data. -/
abbrev Store := List (String × UserData)

/-- The defaults installed by `get_user_data` for an unknown user. -/
def defaultUserData : UserData :=
  { challenges := []
    timezone := "UTC"
    reminder_morning := "09:00"
    reminder_evening := "20:00"
    reminders_enabled := true }

/-- `FitnessChallengeBot.get_user_data`: returns the user's data, creating the
default entry (a store mutation) when the user is unknown. -/
def get_user_data (s : Store) (uid : String) : Store × UserData :=
  match alistLookup s uid with
  | some ud => (s, ud)
  | none => (s ++ [(uid, defaultUserData)], defaultUserData)

/-- The challenge dict literal built inside `create_challenge`. -/
def newChallenge (ex : ExerciseType) (total_reps days now : Int) : Challenge :=
  { id := ex.nameStr ++ "_" ++ toString now
    exercise := ex.value
    total_reps := total_reps
    target_days := days
    current_reps := 0
    start_date := now
    target_date := now + days * 86400
    status := ChallengeStatus.active
    daily_records := []
    daily_target := (total_reps : ℚ) / (days : ℚ)
    completion_date := none }

/-- `FitnessChallengeBot.create_challenge`: inserts a fresh challenge into the
user's mapping and returns the new id. -/
def create_challenge (s : Store) (uid : String) (ex : ExerciseType)
    (total_reps days now : Int) : Store × String :=
  let r := get_user_data s uid
  let cid := ex.nameStr ++ "_" ++ toString now
  (alistSet r.1 uid
    { r.2 with challenges := alistSet r.2.challenges cid (newChallenge ex total_reps days now) },
   cid)

/-- The per-challenge mutation of `add_reps` once the challenge was found:
add to `current_reps`, add to today's `daily_records` entry (creating it at 0
first when absent), and mark completed when the total target is reached. -/
def addRepsChallenge (ch : Challenge) (reps now : Int) : Challenge :=
  let ch1 := { ch with current_reps := ch.current_reps + reps }
  let today := dateOf now
  let ch2 := { ch1 with
    daily_records := alistSet ch1.daily_records today (alistLookupD ch1.daily_records today 0 + reps) }
  if ch2.total_reps ≤ ch2.current_reps then
    { ch2 with status := ChallengeStatus.completed, completion_date := some now }
  else
    ch2

/-- `FitnessChallengeBot.add_reps`: `False` and no challenge mutation when the
challenge id is unknown (though `get_user_data` may have installed a fresh
user entry); otherwise applies `addRepsChallenge` and returns `True`. -/
def add_reps (s : Store) (uid cid : String) (reps now : Int) : Store × Bool :=
  let r := get_user_data s uid
  match alistLookup r.2.challenges cid with
  | none => (r.1, false)
  | some ch =>
      (alistSet r.1 uid
        { r.2 with challenges := alistSet r.2.challenges cid (addRepsChallenge ch reps now) },
       true)

/-- The progress dict returned by `get_challenge_progress`. -/
structure ProgressSnapshot where
  challenge : Challenge
  percentage : ℚ
  days_elapsed : Int
  days_remaining : Int
  actual_daily_avg : ℚ
  needed_daily_avg : ℚ
  projected_date : Option ℚ
  on_track : Bool
deriving DecidableEq

/-- The pure computation of `get_challenge_progress` on a found challenge. -/
def computeProgress (ch : Challenge) (now : Int) : ProgressSnapshot :=
  let days_elapsed := Int.fdiv (now - ch.start_date) 86400 + 1
  let days_remaining := Int.fdiv (ch.target_date - now) 86400
  let actual_daily_avg : ℚ :=
    if 0 < days_elapsed then (ch.current_reps : ℚ) / (days_elapsed : ℚ) else 0
  let needed_daily_avg : ℚ :=
    ((ch.total_reps - ch.current_reps : Int) : ℚ) / ((max days_remaining 1 : Int) : ℚ)
  let projected_date : Option ℚ :=
    if 0 < actual_daily_avg then
      some ((now : ℚ) + ((ch.total_reps - ch.current_reps : Int) : ℚ) / actual_daily_avg * 86400)
    else
      none
  { challenge := ch
    percentage := (ch.current_reps : ℚ) / (ch.total_reps : ℚ) * 100
    days_elapsed := days_elapsed
    days_remaining := days_remaining
    actual_daily_avg := actual_daily_avg
    needed_daily_avg := needed_daily_avg
    projected_date := projected_date
    on_track := decide (ch.daily_target ≤ actual_daily_avg) }

/-- `FitnessChallengeBot.get_challenge_progress`: `none` when the challenge id
is unknown, otherwise the computed snapshot; the store component records the
effect of the internal `get_user_data` call. -/
def get_challenge_progress (s : Store) (uid cid : String) (now : Int) :
    Store × Option ProgressSnapshot :=
  let r := get_user_data s uid
  match alistLookup r.2.challenges cid with
  | none => (r.1, none)
  | some ch => (r.1, some (computeProgress ch now))

/-- `FitnessChallengeBot.get_active_challenges`: snapshots of the user's
challenges whose status is active, in mapping order. -/
def get_active_challenges (s : Store) (uid : String) (now : Int) :
    Store × List ProgressSnapshot :=
  let r := get_user_data s uid
  (r.1,
   (r.2.challenges.filter (fun p => p.2.status = ChallengeStatus.active)).map
     (fun p => computeProgress p.2 now))

/-- Floor of a rational, computed on the numerator and denominator. -/
def ratFloor (q : ℚ) : Int :=
  Int.fdiv q.num (q.den : Int)

/-- Round-half-to-even on a rational: the rounding Python's `'%.0f'`
formatting applies to the displayed reminder quantities. -/
def roundHalfEven (q : ℚ) : Int :=
  let f := ratFloor q
  let r := q - (f : ℚ)
  if r < 1 / 2 then f
  else if 1 / 2 < r then f + 1
  else if f % 2 = 0 then f else f + 1

/-- The classification a reminder line carries for one challenge. -/
inductive ReminderClass
  | notStarted (target : Int)
  | inProgress (remaining : Int)
  | goalMet
deriving DecidableEq

/-- One reminder line: the exercise label and its classification. -/
structure ReminderLine where
  exercise : String
  cls : ReminderClass
deriving DecidableEq

/-- The per-challenge decision of `send_daily_reminders`: today's logged reps
(`daily_records.get(today, 0)`) against `daily_target`. -/
def challengeReminderLine (ch : Challenge) (today : String) : ReminderLine :=
  let todayReps := alistLookupD ch.daily_records today 0
  if todayReps = 0 then
    { exercise := ch.exercise, cls := ReminderClass.notStarted (roundHalfEven ch.daily_target) }
  else if (todayReps : ℚ) < ch.daily_target then
    { exercise := ch.exercise,
      cls := ReminderClass.inProgress (roundHalfEven (ch.daily_target - (todayReps : ℚ))) }
  else
    { exercise := ch.exercise, cls := ReminderClass.goalMet }

/-- The reminder decisions `send_daily_reminders` produces for one user:
nothing when reminders are disabled or no challenge is active, otherwise one
line per active challenge. -/
def buildReminderDecisions (ud : UserData) (now : Int) : List ReminderLine :=
  if ud.reminders_enabled = false then []
  else
    let active := ud.challenges.filter (fun p => p.2.status = ChallengeStatus.active)
    if active = [] then []
    else active.map (fun p => challengeReminderLine p.2 (dateOf now))

/-- One step of the engine trace: the two mutating operations. -/
inductive Op
  | create (uid : String) (ex : ExerciseType) (total_reps days now : Int)
  | add (uid cid : String) (reps now : Int)
deriving DecidableEq

/-- Apply one operation to the store. -/
def applyOp (s : Store) : Op → Store
  | .create uid ex total_reps days now => (create_challenge s uid ex total_reps days now).1
  | .add uid cid reps now => (add_reps s uid cid reps now).1

/-- Run a trace of operations from a starting store. -/
def runOps (s : Store) (ops : List Op) : Store :=
  ops.foldl applyOp s

/-- The operations' preconditions from the spec: positive quantities. -/
def validOp : Op → Prop
  | .create _ _ total_reps days _ => 0 < total_reps ∧ 0 < days
  | .add _ _ reps _ => 0 < reps

/-- Look a challenge up through the store. -/
def storeChallenge (s : Store) (uid cid : String) : Option Challenge :=
  (alistLookup s uid).bind (fun ud => alistLookup ud.challenges cid)

/-- Status is determined by whether the cumulative count has reached the
target: the code's completion invariant. -/
def statusInvChallenge (c : Challenge) : Prop :=
  c.status = if c.total_reps ≤ c.current_reps then ChallengeStatus.completed
             else ChallengeStatus.active

/-- The bookkeeping invariant: the cumulative count is the sum of the daily
records. -/
def sumInvChallenge (c : Challenge) : Prop :=
  c.current_reps = valuesSum c.daily_records

/-- A per-challenge property holding of every challenge in the store. -/
def storeAll (P : Challenge → Prop) (s : Store) : Prop :=
  ∀ u ∈ s, ∀ c ∈ u.2.challenges, P c.2

/-- Fixture: a one-create trace for the trace theorems. -/
def ops1 : List Op :=
  [Op.create "u" ExerciseType.pushups 10 5 0]

/-- Fixture: store after creating a 10-rep, 5-day push-up challenge at t=0. -/
def sampleStore : Store :=
  (create_challenge [] "u" ExerciseType.pushups 10 5 0).1

/-- Fixture: the id `create_challenge` returns for that creation. -/
def sampleCid : String := "PUSHUPS_0"

/-- Fixture: `sampleStore` after logging 15 reps at t=100 (crosses the
10-rep target, so the challenge completes). -/
def sampleStore2 : Store :=
  (add_reps sampleStore "u" sampleCid 15 100).1

/-- Fixture: `sampleStore2` after logging 5 further reps at t=200 on the
already-completed challenge. -/
def sampleStore3 : Store :=
  (add_reps sampleStore2 "u" sampleCid 5 200).1

/-- Fixture: the user entry `ops1` produces. -/
def udSample : UserData :=
  { challenges := [("PUSHUPS_0", newChallenge ExerciseType.pushups 10 5 0)]
    timezone := "UTC"
    reminder_morning := "09:00"
    reminder_evening := "20:00"
    reminders_enabled := true }

/-- Fixture: a plain active challenge (10 reps over 5 days, nothing logged). -/
def chPlain : Challenge :=
  { id := "c1"
    exercise := "push-ups"
    total_reps := 10
    target_days := 5
    current_reps := 0
    start_date := 0
    target_date := 432000
    status := ChallengeStatus.active
    daily_records := []
    daily_target := 2
    completion_date := none }

/-- Fixture: a user profile holding `chPlain`. -/
def udPlain : UserData :=
  { challenges := [("c1", chPlain)]
    timezone := "UTC"
    reminder_morning := "09:00"
    reminder_evening := "20:00"
    reminders_enabled := true }

/-- Fixture: a store holding `udPlain`. -/
def storePlain : Store := [("u", udPlain)]

/-- Fixture: `udPlain` with reminders switched off. -/
def udOff : UserData :=
  { udPlain with reminders_enabled := false }

/-- Fixture: an active challenge with daily target 20 and 5 reps logged on
day key "0". -/
def chR : Challenge :=
  { id := "c2"
    exercise := "squats"
    total_reps := 600
    target_days := 30
    current_reps := 5
    start_date := 0
    target_date := 2592000
    status := ChallengeStatus.active
    daily_records := [("0", 5)]
    daily_target := 20
    completion_date := none }

theorem alistLookup_set_self {α : Type} (l : List (String × α)) (k : String) (v : α) :
    alistLookup (alistSet l k v) k = some v := by
  induction l with
  | nil => simp [alistSet, alistLookup]
  | cons p rest ih =>
      obtain ⟨k1, v1⟩ := p
      by_cases h : k1 = k
      · simp [alistSet, alistLookup, h]
      · simp [alistSet, alistLookup, h, ih]

theorem alistLookup_set_of_ne {α : Type} (l : List (String × α)) (k k2 : String) (v : α)
    (h : k2 ≠ k) : alistLookup (alistSet l k v) k2 = alistLookup l k2 := by
  have hk : ¬k = k2 := fun h2 => h h2.symm
  induction l with
  | nil => simp [alistSet, alistLookup, hk]
  | cons p rest ih =>
      obtain ⟨k1, v1⟩ := p
      by_cases h1 : k1 = k
      · subst h1
        simp [alistSet, alistLookup, hk]
      · simp only [alistSet, if_neg h1]
        by_cases h2 : k1 = k2
        · simp [alistLookup, h2]
        · simp [alistLookup, h2, ih]

theorem alistLookup_mem {α : Type} {l : List (String × α)} {k : String} {v : α}
    (h : alistLookup l k = some v) : (k, v) ∈ l := by
  induction l with
  | nil => simp [alistLookup] at h
  | cons p rest ih =>
      obtain ⟨k1, v1⟩ := p
      by_cases h1 : k1 = k
      · subst h1
        simp [alistLookup] at h
        simp [h]
      · simp [alistLookup, h1] at h
        exact List.mem_cons_of_mem _ (ih h)

theorem mem_alistSet {α : Type} {l : List (String × α)} {k : String} {v : α} {p : String × α}
    (h : p ∈ alistSet l k v) : p = (k, v) ∨ p ∈ l := by
  induction l with
  | nil => simpa [alistSet] using h
  | cons q rest ih =>
      obtain ⟨k1, v1⟩ := q
      by_cases h1 : k1 = k
      · simp [alistSet, h1] at h
        rcases h with h | h
        · exact Or.inl h
        · exact Or.inr (List.mem_cons_of_mem _ h)
      · simp [alistSet, h1] at h
        rcases h with h | h
        · exact Or.inr (by simp [h])
        · rcases ih h with h2 | h2
          · exact Or.inl h2
          · exact Or.inr (List.mem_cons_of_mem _ h2)

theorem valuesSum_cons (k : String) (v : Int) (l : List (String × Int)) :
    valuesSum ((k, v) :: l) = v + valuesSum l := by
  simp [valuesSum]

theorem valuesSum_alistSet_add (l : List (String × Int)) (k : String) (r : Int) :
    valuesSum (alistSet l k (alistLookupD l k 0 + r)) = valuesSum l + r := by
  induction l with
  | nil => simp [alistSet, alistLookupD, alistLookup, valuesSum]
  | cons p rest ih =>
      obtain ⟨k1, v1⟩ := p
      by_cases h1 : k1 = k
      · subst h1
        have hd : alistLookupD ((k1, v1) :: rest) k1 0 = v1 := by
          simp [alistLookupD, alistLookup]
        have hs : alistSet ((k1, v1) :: rest) k1 (v1 + r) = (k1, v1 + r) :: rest := by
          simp [alistSet]
        rw [hd, hs, valuesSum_cons, valuesSum_cons]
        ring
      · have hd : alistLookupD ((k1, v1) :: rest) k 0 = alistLookupD rest k 0 := by
          simp [alistLookupD, alistLookup, h1]
        have hs : alistSet ((k1, v1) :: rest) k (alistLookupD rest k 0 + r) =
            (k1, v1) :: alistSet rest k (alistLookupD rest k 0 + r) := by
          simp [alistSet, h1]
        rw [hd, hs, valuesSum_cons, valuesSum_cons, ih]
        ring

theorem get_user_data_of_some {s : Store} {uid : String} {ud : UserData}
    (h : alistLookup s uid = some ud) : get_user_data s uid = (s, ud) := by
  simp [get_user_data, h]

theorem get_user_data_of_none {s : Store} {uid : String}
    (h : alistLookup s uid = none) :
    get_user_data s uid = (s ++ [(uid, defaultUserData)], defaultUserData) := by
  simp [get_user_data, h]

theorem storeAll_get_user_data (P : Challenge → Prop) (s : Store) (uid : String)
    (h : storeAll P s) : storeAll P (get_user_data s uid).1 := by
  cases hl : alistLookup s uid with
  | some ud => rw [get_user_data_of_some hl]; exact h
  | none =>
      rw [get_user_data_of_none hl]
      intro u hu c hc
      rcases List.mem_append.mp hu with h1 | h1
      · exact h u h1 c hc
      · simp at h1
        subst h1
        simp [defaultUserData] at hc

theorem get_user_data_challenges_all (P : Challenge → Prop) (s : Store) (uid : String)
    (h : storeAll P s) : ∀ c ∈ (get_user_data s uid).2.challenges, P c.2 := by
  cases hl : alistLookup s uid with
  | some ud =>
      rw [get_user_data_of_some hl]
      exact h (uid, ud) (alistLookup_mem hl)
  | none =>
      rw [get_user_data_of_none hl]
      intro c hc
      simp [defaultUserData] at hc

theorem storeAll_alistSet_user {P : Challenge → Prop} {s : Store} {uid : String} {ud : UserData}
    (h : storeAll P s) (hud : ∀ c ∈ ud.challenges, P c.2) :
    storeAll P (alistSet s uid ud) := by
  intro u hu c hc
  rcases mem_alistSet hu with h1 | h1
  · subst h1
    exact hud c hc
  · exact h u h1 c hc

theorem challengesAll_alistSet {P : Challenge → Prop} {l : List (String × Challenge)}
    {k : String} {v : Challenge} (h : ∀ c ∈ l, P c.2) (hv : P v) :
    ∀ c ∈ alistSet l k v, P c.2 := by
  intro c hc
  rcases mem_alistSet hc with h1 | h1
  · subst h1
    exact hv
  · exact h c h1

theorem create_challenge_eq {s : Store} {uid : String} {ud : UserData}
    (ex : ExerciseType) (total_reps days now : Int)
    (hu : alistLookup s uid = some ud) :
    create_challenge s uid ex total_reps days now =
      (alistSet s uid
        { ud with challenges := (alistSet ud.challenges (ex.nameStr ++ "_" ++ toString now)
            (newChallenge ex total_reps days now)) },
       ex.nameStr ++ "_" ++ toString now) := by
  simp [create_challenge, get_user_data_of_some hu]

theorem add_reps_found {s : Store} {uid cid : String} {ud : UserData} {ch : Challenge}
    (reps now : Int)
    (hu : alistLookup s uid = some ud) (hc : alistLookup ud.challenges cid = some ch) :
    add_reps s uid cid reps now =
      (alistSet s uid
        { ud with challenges := alistSet ud.challenges cid (addRepsChallenge ch reps now) },
       true) := by
  simp [add_reps, get_user_data_of_some hu, hc]

theorem add_reps_missing {s : Store} {uid cid : String} {ud : UserData}
    (reps now : Int)
    (hu : alistLookup s uid = some ud) (hc : alistLookup ud.challenges cid = none) :
    add_reps s uid cid reps now = (s, false) := by
  simp [add_reps, get_user_data_of_some hu, hc]

theorem add_reps_no_user {s : Store} {uid : String} (cid : String) (reps now : Int)
    (hu : alistLookup s uid = none) :
    add_reps s uid cid reps now = (s ++ [(uid, defaultUserData)], false) := by
  simp [add_reps, get_user_data_of_none hu, defaultUserData, alistLookup]

theorem addRepsChallenge_eq (ch : Challenge) (reps now : Int) :
    addRepsChallenge ch reps now =
      if ch.total_reps ≤ ch.current_reps + reps then
        { ch with
          current_reps := ch.current_reps + reps
          daily_records := alistSet ch.daily_records (dateOf now)
            (alistLookupD ch.daily_records (dateOf now) 0 + reps)
          status := ChallengeStatus.completed
          completion_date := some now }
      else
        { ch with
          current_reps := ch.current_reps + reps
          daily_records := alistSet ch.daily_records (dateOf now)
            (alistLookupD ch.daily_records (dateOf now) 0 + reps) } := by
  simp [addRepsChallenge]

theorem statusInv_newChallenge (ex : ExerciseType) (total_reps days now : Int)
    (ht : 0 < total_reps) : statusInvChallenge (newChallenge ex total_reps days now) := by
  simp [statusInvChallenge, newChallenge, not_le.mpr ht]

theorem sumInv_newChallenge (ex : ExerciseType) (total_reps days now : Int) :
    sumInvChallenge (newChallenge ex total_reps days now) := by
  simp [sumInvChallenge, newChallenge, valuesSum]

theorem statusInv_addReps {ch : Challenge} (reps now : Int) (hr : 0 < reps)
    (h : statusInvChallenge ch) : statusInvChallenge (addRepsChallenge ch reps now) := by
  rw [addRepsChallenge_eq]
  by_cases hc : ch.total_reps ≤ ch.current_reps + reps
  · simp [statusInvChallenge, hc]
  · have hlt : ¬ch.total_reps ≤ ch.current_reps := fun h2 =>
      hc (le_trans h2 (by linarith))
    simp only [if_neg hc]
    simp only [statusInvChallenge] at h ⊢
    simp only [if_neg hlt] at h
    simp [h, hc]

theorem sumInv_addReps {ch : Challenge} (reps now : Int)
    (h : sumInvChallenge ch) : sumInvChallenge (addRepsChallenge ch reps now) := by
  rw [addRepsChallenge_eq]
  by_cases hc : ch.total_reps ≤ ch.current_reps + reps
  · simp only [if_pos hc, sumInvChallenge]
    rw [valuesSum_alistSet_add]
    simp only [sumInvChallenge] at h
    rw [h]
  · simp only [if_neg hc, sumInvChallenge]
    rw [valuesSum_alistSet_add]
    simp only [sumInvChallenge] at h
    rw [h]

theorem storeAll_create_challenge (P : Challenge → Prop) (s : Store) (uid : String)
    (ex : ExerciseType) (total_reps days now : Int)
    (hnew : P (newChallenge ex total_reps days now))
    (h : storeAll P s) : storeAll P (create_challenge s uid ex total_reps days now).1 := by
  have h1 : storeAll P (get_user_data s uid).1 := storeAll_get_user_data P s uid h
  have h2 : ∀ c ∈ (get_user_data s uid).2.challenges, P c.2 :=
    get_user_data_challenges_all P s uid h
  unfold create_challenge
  exact storeAll_alistSet_user h1 (challengesAll_alistSet h2 hnew)

theorem storeAll_add_reps (P : Challenge → Prop) (s : Store) (uid cid : String)
    (reps now : Int)
    (hstep : ∀ ch, P ch → P (addRepsChallenge ch reps now))
    (h : storeAll P s) : storeAll P (add_reps s uid cid reps now).1 := by
  have h1 : storeAll P (get_user_data s uid).1 := storeAll_get_user_data P s uid h
  have h2 : ∀ c ∈ (get_user_data s uid).2.challenges, P c.2 :=
    get_user_data_challenges_all P s uid h
  unfold add_reps
  cases hl : alistLookup (get_user_data s uid).2.challenges cid with
  | none => simpa [hl] using h1
  | some ch =>
      simp only [hl]
      exact storeAll_alistSet_user h1
        (challengesAll_alistSet h2 (hstep ch (h2 _ (alistLookup_mem hl))))

theorem storeAll_runOps (P : Challenge → Prop) (Q : Op → Prop) (ops : List Op)
    (hok : ∀ o ∈ ops, Q o)
    (hcreate : ∀ uid ex total_reps days now,
      Q (Op.create uid ex total_reps days now) → P (newChallenge ex total_reps days now))
    (hstep : ∀ ch uid cid reps now,
      Q (Op.add uid cid reps now) → P ch → P (addRepsChallenge ch reps now)) :
    ∀ s, storeAll P s → storeAll P (runOps s ops) := by
  induction ops with
  | nil => intro s h; simpa [runOps] using h
  | cons o rest ih =>
      intro s h
      have ho : Q o := hok o (List.mem_cons_self o rest)
      have hrest : ∀ o2 ∈ rest, Q o2 := fun o2 h2 => hok o2 (List.mem_cons_of_mem _ h2)
      have hstepd : storeAll P (applyOp s o) := by
        cases o with
        | create uid ex total_reps days now =>
            exact storeAll_create_challenge P s uid ex total_reps days now
              (hcreate uid ex total_reps days now ho) h
        | add uid cid reps now =>
            exact storeAll_add_reps P s uid cid reps now
              (fun ch hch => hstep ch uid cid reps now ho hch) h
      have : runOps s (o :: rest) = runOps (applyOp s o) rest := by
        simp [runOps]
      rw [this]
      exact ih hrest (applyOp s o) hstepd

theorem storeAll_empty (P : Challenge → Prop) : storeAll P [] := by
  intro u hu
  simp at hu

theorem addRepsChallenge_current (ch : Challenge) (reps now : Int) :
    (addRepsChallenge ch reps now).current_reps = ch.current_reps + reps := by
  rw [addRepsChallenge_eq]
  split <;> rfl

theorem addRepsChallenge_complete (ch : Challenge) (reps now : Int)
    (h : ch.total_reps ≤ ch.current_reps + reps) :
    (addRepsChallenge ch reps now).status = ChallengeStatus.completed ∧
      (addRepsChallenge ch reps now).completion_date = some now := by
  rw [addRepsChallenge_eq, if_pos h]
  exact ⟨rfl, rfl⟩

theorem addRepsChallenge_not_complete (ch : Challenge) (reps now : Int)
    (h : ¬ch.total_reps ≤ ch.current_reps + reps) :
    (addRepsChallenge ch reps now).status = ch.status ∧
      (addRepsChallenge ch reps now).completion_date = ch.completion_date := by
  rw [addRepsChallenge_eq, if_neg h]
  exact ⟨rfl, rfl⟩

theorem addRepsChallenge_completion_date (ch : Challenge) (reps now : Int) :
    (addRepsChallenge ch reps now).completion_date =
      if ch.total_reps ≤ ch.current_reps + reps then some now else ch.completion_date := by
  rw [addRepsChallenge_eq]
  split <;> rfl

theorem addRepsChallenge_frame (ch : Challenge) (reps now : Int) :
    (addRepsChallenge ch reps now).total_reps = ch.total_reps ∧
    (addRepsChallenge ch reps now).target_days = ch.target_days ∧
    (addRepsChallenge ch reps now).daily_target = ch.daily_target ∧
    (addRepsChallenge ch reps now).start_date = ch.start_date ∧
    (addRepsChallenge ch reps now).target_date = ch.target_date ∧
    (addRepsChallenge ch reps now).exercise = ch.exercise ∧
    (addRepsChallenge ch reps now).id = ch.id := by
  rw [addRepsChallenge_eq]
  split <;> exact ⟨rfl, rfl, rfl, rfl, rfl, rfl, rfl⟩

theorem addRepsChallenge_records_other (ch : Challenge) (reps now : Int) (d : String)
    (hd : d ≠ dateOf now) :
    alistLookup (addRepsChallenge ch reps now).daily_records d
      = alistLookup ch.daily_records d := by
  rw [addRepsChallenge_eq]
  split <;> exact alistLookup_set_of_ne _ _ _ _ hd

theorem addRepsChallenge_records_sum (ch : Challenge) (reps now : Int) :
    valuesSum (addRepsChallenge ch reps now).daily_records
      = valuesSum ch.daily_records + reps := by
  rw [addRepsChallenge_eq]
  split <;> exact valuesSum_alistSet_add _ _ _

theorem storeChallenge_elim {s : Store} {uid cid : String} {ch : Challenge}
    (h : storeChallenge s uid cid = some ch) :
    ∃ ud, alistLookup s uid = some ud ∧ alistLookup ud.challenges cid = some ch := by
  unfold storeChallenge at h
  cases hl : alistLookup s uid with
  | none => rw [hl] at h; simp at h
  | some ud =>
      rw [hl] at h
      simp at h
      exact ⟨ud, rfl, h⟩

theorem storeChallenge_add_reps {s : Store} {uid cid : String} {ud : UserData} {ch : Challenge}
    (reps now : Int) (hu : alistLookup s uid = some ud)
    (hc : alistLookup ud.challenges cid = some ch) :
    storeChallenge (add_reps s uid cid reps now).1 uid cid
      = some (addRepsChallenge ch reps now) := by
  rw [add_reps_found reps now hu hc]
  unfold storeChallenge
  rw [alistLookup_set_self]
  simp [alistLookup_set_self]

theorem storeChallenge_mem {s : Store} {uid cid : String} {ch : Challenge}
    (h : storeChallenge s uid cid = some ch) (P : Challenge → Prop)
    (hall : storeAll P s) : P ch := by
  obtain ⟨ud, hu, hc⟩ := storeChallenge_elim h
  exact hall (uid, ud) (alistLookup_mem hu) (cid, ch) (alistLookup_mem hc)

/-- C1: over every trace of `create_challenge`/`add_reps` operations obeying
the spec preconditions (positive reps, totals and day counts), each challenge
in the store is `completed` exactly when `current_reps` has reached
`total_reps`; moreover a further `add_reps` on an existing challenge whose
increment reaches the target makes it `completed` and stamps
`completion_date = now`, while an increment that stays below the target
leaves the status `active`. -/
theorem C1_status_completed_iff (ops : List Op) (hv : ∀ o ∈ ops, validOp o) :
    (∀ u ∈ runOps [] ops, ∀ c ∈ u.2.challenges,
      (c.2.status = ChallengeStatus.completed ↔ c.2.total_reps ≤ c.2.current_reps)) ∧
    (∀ uid cid reps now ch,
      storeChallenge (runOps [] ops) uid cid = some ch → 0 < reps →
      ∃ ch2, storeChallenge (applyOp (runOps [] ops) (Op.add uid cid reps now)) uid cid
          = some ch2 ∧
        ch2.current_reps = ch.current_reps + reps ∧
        (ch.total_reps ≤ ch.current_reps + reps →
          ch2.status = ChallengeStatus.completed ∧ ch2.completion_date = some now) ∧
        (ch.current_reps + reps < ch.total_reps →
          ch.status = ChallengeStatus.active ∧ ch2.status = ChallengeStatus.active)) := by
  have hinv : storeAll statusInvChallenge (runOps [] ops) :=
    storeAll_runOps statusInvChallenge validOp ops hv
      (fun _ ex t d n hq => statusInv_newChallenge ex t d n hq.1)
      (fun ch _ _ reps now hq hch => statusInv_addReps reps now hq hch)
      [] (storeAll_empty _)
  constructor
  · intro u hu c hc
    have h := hinv u hu c hc
    unfold statusInvChallenge at h
    by_cases hcc : c.2.total_reps ≤ c.2.current_reps
    · rw [if_pos hcc] at h
      simp [h, hcc]
    · rw [if_neg hcc] at h
      simp [h, hcc]
  · intro uid cid reps now ch hch hr
    obtain ⟨ud, hu, hc⟩ := storeChallenge_elim hch
    refine ⟨addRepsChallenge ch reps now, ?_, addRepsChallenge_current ch reps now, ?_, ?_⟩
    · exact storeChallenge_add_reps reps now hu hc
    · intro hcross
      exact addRepsChallenge_complete ch reps now hcross
    · intro hbelow
      have hinvch : statusInvChallenge ch := storeChallenge_mem hch _ hinv
      have h1 : ¬ch.total_reps ≤ ch.current_reps := by
        intro h2
        linarith
      have h2 : ¬ch.total_reps ≤ ch.current_reps + reps := not_le.mpr hbelow
      unfold statusInvChallenge at hinvch
      rw [if_neg h1] at hinvch
      exact ⟨hinvch, by rw [(addRepsChallenge_not_complete ch reps now h2).1, hinvch]⟩

/-- C2: over every trace of `create_challenge`/`add_reps` operations, each
challenge's `current_reps` equals the sum of its `daily_records` values; and
applying any sequence of `add_reps` per-challenge updates to a freshly
created challenge leaves both `current_reps` and the record sum equal to the
sum of the logged reps. -/
theorem C2_current_eq_records_sum (ops : List Op) :
    (∀ u ∈ runOps [] ops, ∀ c ∈ u.2.challenges,
      c.2.current_reps = valuesSum c.2.daily_records) ∧
    (∀ (l : List (Int × Int)) (ex : ExerciseType) (total_reps days now : Int),
      (l.foldl (fun c p => addRepsChallenge c p.1 p.2)
          (newChallenge ex total_reps days now)).current_reps
        = (l.map (fun p => p.1)).sum ∧
      valuesSum (l.foldl (fun c p => addRepsChallenge c p.1 p.2)
          (newChallenge ex total_reps days now)).daily_records
        = (l.map (fun p => p.1)).sum) := by
  have hfold : ∀ (l : List (Int × Int)) (ch : Challenge),
      (l.foldl (fun c p => addRepsChallenge c p.1 p.2) ch).current_reps
          = ch.current_reps + (l.map (fun p => p.1)).sum ∧
      valuesSum (l.foldl (fun c p => addRepsChallenge c p.1 p.2) ch).daily_records
          = valuesSum ch.daily_records + (l.map (fun p => p.1)).sum := by
    intro l
    induction l with
    | nil => intro ch; simp
    | cons p rest ih =>
        intro ch
        have h1 := ih (addRepsChallenge ch p.1 p.2)
        constructor
        · rw [List.foldl_cons, h1.1, addRepsChallenge_current]
          simp
          ring
        · rw [List.foldl_cons, h1.2, addRepsChallenge_records_sum]
          simp
          ring
  constructor
  · exact storeAll_runOps sumInvChallenge (fun _ => True) ops (fun _ _ => trivial)
      (fun _ ex t d n _ => sumInv_newChallenge ex t d n)
      (fun ch _ _ reps now _ hch => sumInv_addReps reps now hch)
      [] (storeAll_empty _)
  · intro l ex total_reps days now
    have h := hfold l (newChallenge ex total_reps days now)
    constructor
    · rw [h.1]
      simp [newChallenge]
    · rw [h.2]
      simp [newChallenge, valuesSum]

theorem create_challenge_via_gud (s : Store) (uid : String) (ex : ExerciseType)
    (total_reps days now : Int) :
    create_challenge s uid ex total_reps days now =
      (alistSet (get_user_data s uid).1 uid
        { (get_user_data s uid).2 with challenges :=
            (alistSet (get_user_data s uid).2.challenges (ex.nameStr ++ "_" ++ toString now)
              (newChallenge ex total_reps days now)) },
       ex.nameStr ++ "_" ++ toString now) := rfl

theorem storeChallenge_create (s : Store) (uid : String) (ex : ExerciseType)
    (total_reps days now : Int) :
    storeChallenge (create_challenge s uid ex total_reps days now).1 uid
        (create_challenge s uid ex total_reps days now).2
      = some (newChallenge ex total_reps days now) := by
  rw [create_challenge_via_gud]
  unfold storeChallenge
  rw [alistLookup_set_self]
  simp [alistLookup_set_self]

/-- C3: for an existing challenge and any instant at or after its start
(including instants past the target date), `get_challenge_progress` computes
every snapshot field by the spec formulas: elapsed days are the floored day
span plus one, remaining days are the floored span to the target (not
clamped), percentage is `current/total*100`, the actual average divides by
the elapsed days, the needed average divides by `max(days_remaining, 1)`, the
projected completion instant exists exactly when the actual average is
positive (in particular never when `current_reps = 0`), and `on_track`
compares the actual average with the daily target. -/
theorem C3_progress_formulas (ch : Challenge) (now : Int) (h : ch.start_date ≤ now) :
    (computeProgress ch now).days_elapsed = Int.fdiv (now - ch.start_date) 86400 + 1 ∧
    (computeProgress ch now).days_remaining = Int.fdiv (ch.target_date - now) 86400 ∧
    (computeProgress ch now).percentage
      = (ch.current_reps : ℚ) / (ch.total_reps : ℚ) * 100 ∧
    (computeProgress ch now).actual_daily_avg
      = (ch.current_reps : ℚ) / (((computeProgress ch now).days_elapsed : Int) : ℚ) ∧
    (computeProgress ch now).needed_daily_avg
      = ((ch.total_reps - ch.current_reps : Int) : ℚ)
          / ((max (computeProgress ch now).days_remaining 1 : Int) : ℚ) ∧
    (0 < (computeProgress ch now).actual_daily_avg →
      (computeProgress ch now).projected_date
        = some ((now : ℚ) + ((ch.total_reps - ch.current_reps : Int) : ℚ)
            / (computeProgress ch now).actual_daily_avg * 86400)) ∧
    (¬0 < (computeProgress ch now).actual_daily_avg →
      (computeProgress ch now).projected_date = none) ∧
    (ch.current_reps = 0 → (computeProgress ch now).projected_date = none) ∧
    ((computeProgress ch now).on_track = true ↔
      ch.daily_target ≤ (computeProgress ch now).actual_daily_avg) := by
  have hde : 0 < Int.fdiv (now - ch.start_date) 86400 + 1 := by
    have h0 : (0 : Int) ≤ Int.fdiv (now - ch.start_date) 86400 :=
      Int.fdiv_nonneg (by linarith) (by norm_num)
    linarith
  have hactual : (computeProgress ch now).actual_daily_avg
      = if 0 < Int.fdiv (now - ch.start_date) 86400 + 1 then
          (ch.current_reps : ℚ) / ((Int.fdiv (now - ch.start_date) 86400 + 1 : Int) : ℚ)
        else 0 := rfl
  have hproj : (computeProgress ch now).projected_date
      = if 0 < (computeProgress ch now).actual_daily_avg then
          some ((now : ℚ) + ((ch.total_reps - ch.current_reps : Int) : ℚ)
            / (computeProgress ch now).actual_daily_avg * 86400)
        else none := rfl
  refine ⟨rfl, rfl, rfl, ?_, rfl, ?_, ?_, ?_, ?_⟩
  · rw [hactual, if_pos hde]
    rfl
  · intro hp
    rw [hproj, if_pos hp]
  · intro hp
    rw [hproj, if_neg hp]
  · intro h0
    have hz : (computeProgress ch now).actual_daily_avg = 0 := by
      rw [hactual, if_pos hde, h0]
      simp
    rw [hproj, hz]
    simp
  · exact decide_eq_true_iff

/-- C6: a `create_challenge` call with positive `total_reps` and `days`
inserts, under the returned id, a challenge with status active, zero
cumulative reps, empty daily records, `start_date = now`, `target_date`
exactly `days` calendar days later, the exact rational daily target
`total_reps / days`, and the returned id as its id. -/
theorem C6_create_challenge_fields (s : Store) (uid : String) (ex : ExerciseType)
    (total_reps days now : Int) (ht : 0 < total_reps) (hd : 0 < days) :
    ∃ ch, storeChallenge (create_challenge s uid ex total_reps days now).1 uid
        (create_challenge s uid ex total_reps days now).2 = some ch ∧
      ch.status = ChallengeStatus.active ∧
      ch.current_reps = 0 ∧
      ch.daily_records = [] ∧
      ch.start_date = now ∧
      ch.target_date = now + days * 86400 ∧
      ch.daily_target = (total_reps : ℚ) / (days : ℚ) ∧
      ch.id = (create_challenge s uid ex total_reps days now).2 := by
  exact ⟨newChallenge ex total_reps days now,
    storeChallenge_create s uid ex total_reps days now,
    rfl, rfl, rfl, rfl, rfl, rfl, rfl⟩

/-- C4: the code evaluated at failing inputs.  The claim says the engine
itself rejects non-positive `reps`/`totalReps`/`days` before any mutation;
the code performs no such validation: `add_reps` accepts `reps = -5`,
reports success and mutates the store, and `create_challenge` accepts
`total_reps = -10` with `days = -3` and inserts the challenge. -/
theorem C4_engine_accepts_nonpositive :
    (add_reps sampleStore "u" sampleCid (-5) 100).2 = true ∧
    (storeChallenge (add_reps sampleStore "u" sampleCid (-5) 100).1 "u" sampleCid).map
        Challenge.current_reps = some (-5) ∧
    (storeChallenge (create_challenge [] "v" ExerciseType.squats (-10) (-3) 0).1 "v"
        (create_challenge [] "v" ExerciseType.squats (-10) (-3) 0).2).map
        Challenge.total_reps = some (-10) := by
  refine ⟨by decide, by decide, ?_⟩
  rw [storeChallenge_create]
  rfl

/-- C5 counterexample: `add_reps` on an empty store with an unknown user and
challenge id returns failure but does not leave the store unchanged — a
fresh user profile entry appears. -/
theorem C5_counterexample :
    (add_reps [] "u" "nope" 5 0).2 = false ∧ (add_reps [] "u" "nope" 5 0).1 ≠ [] := by
  decide

/-- C5 (amended): `add_reps` on a challenge id missing from the user's
mapping returns failure and mutates no challenge data anywhere: when the
user profile already exists the store is returned completely unchanged, and
when the user is unknown the only change is the insertion of a fresh default
profile with an empty challenge mapping. -/
theorem C5_missing_challenge_no_mutation :
    (∀ s uid cid reps now ud, alistLookup s uid = some ud →
      alistLookup ud.challenges cid = none →
      add_reps s uid cid reps now = (s, false)) ∧
    (∀ s uid cid reps now, alistLookup s uid = none →
      add_reps s uid cid reps now = (s ++ [(uid, defaultUserData)], false)) := by
  constructor
  · intro s uid cid reps now ud hu hc
    exact add_reps_missing reps now hu hc
  · intro s uid cid reps now hu
    exact add_reps_no_user cid reps now hu

/-- Witness for C5's amended theorem at a concrete store. -/
theorem C5_witness :
    alistLookup storePlain "u" = some udPlain ∧
    alistLookup udPlain.challenges "nope" = none ∧
    add_reps storePlain "u" "nope" 5 0 = (storePlain, false) ∧
    alistLookup ([] : Store) "w" = none ∧
    add_reps ([] : Store) "w" "nope" 5 0 = ([("w", defaultUserData)], false) := by
  refine ⟨rfl, rfl, ?_, rfl, ?_⟩
  · exact C5_missing_challenge_no_mutation.1 storePlain "u" "nope" 5 0 udPlain rfl rfl
  · exact C5_missing_challenge_no_mutation.2 [] "w" "nope" 5 0 rfl

/-- C9 counterexample: in `sampleStore2` the challenge is completed with
`completion_date = 100`, yet a further `add_reps` at t=200 on the
already-completed challenge changes `completion_date` to 200, so the date is
not written only at the Active-to-Completed transition. -/
theorem C9_counterexample :
    (storeChallenge sampleStore2 "u" sampleCid).map Challenge.status
        = some ChallengeStatus.completed ∧
    (storeChallenge sampleStore2 "u" sampleCid).map Challenge.completion_date
        = some (some 100) ∧
    (storeChallenge sampleStore3 "u" sampleCid).map Challenge.completion_date
        = some (some 200) := by
  decide

/-- C9 (amended): `add_reps` stamps `completion_date = now` at every call
after which `current_reps` has reached `total_reps` — including calls on an
already-completed challenge, which overwrite the earlier date — and leaves
`completion_date` unchanged when the count stays below the target; a freshly
created challenge carries no completion date. -/
theorem C9_completion_stamping :
    (∀ s uid cid reps now ud ch, alistLookup s uid = some ud →
      alistLookup ud.challenges cid = some ch →
      (storeChallenge (add_reps s uid cid reps now).1 uid cid).map Challenge.completion_date
        = some (if ch.total_reps ≤ ch.current_reps + reps then some now
                else ch.completion_date)) ∧
    (∀ s uid ex total_reps days now,
      (storeChallenge (create_challenge s uid ex total_reps days now).1 uid
          (create_challenge s uid ex total_reps days now).2).map Challenge.completion_date
        = some none) := by
  constructor
  · intro s uid cid reps now ud ch hu hc
    rw [storeChallenge_add_reps reps now hu hc]
    simp [addRepsChallenge_completion_date]
  · intro s uid ex total_reps days now
    rw [storeChallenge_create]
    rfl

/-- Witness for C9's amended theorem at a concrete store. -/
theorem C9_witness :
    (storeChallenge (add_reps storePlain "u" "c1" 5 50).1 "u" "c1").map
        Challenge.completion_date
      = some (if chPlain.total_reps ≤ chPlain.current_reps + 5 then some 50
              else chPlain.completion_date) :=
  C9_completion_stamping.1 storePlain "u" "c1" 5 50 udPlain chPlain rfl rfl

/-- C10: a successful `add_reps` call changes at most the targeted
challenge's `current_reps`, today's `daily_records` entry, `status` and
`completion_date`; the challenge's remaining fields, the user's other
challenges and preference fields, and every other user's entry are
unchanged. -/
theorem C10_add_reps_frame :
    ∀ s uid cid reps now ud ch, alistLookup s uid = some ud →
      alistLookup ud.challenges cid = some ch →
      (add_reps s uid cid reps now).2 = true ∧
      (∀ uid2, uid2 ≠ uid →
        alistLookup (add_reps s uid cid reps now).1 uid2 = alistLookup s uid2) ∧
      (∃ ud2, alistLookup (add_reps s uid cid reps now).1 uid = some ud2 ∧
        ud2.timezone = ud.timezone ∧
        ud2.reminder_morning = ud.reminder_morning ∧
        ud2.reminder_evening = ud.reminder_evening ∧
        ud2.reminders_enabled = ud.reminders_enabled ∧
        (∀ cid2, cid2 ≠ cid →
          alistLookup ud2.challenges cid2 = alistLookup ud.challenges cid2) ∧
        (∃ ch2, alistLookup ud2.challenges cid = some ch2 ∧
          ch2.total_reps = ch.total_reps ∧
          ch2.target_days = ch.target_days ∧
          ch2.daily_target = ch.daily_target ∧
          ch2.start_date = ch.start_date ∧
          ch2.target_date = ch.target_date ∧
          ch2.exercise = ch.exercise ∧
          ch2.id = ch.id ∧
          (∀ d, d ≠ dateOf now →
            alistLookup ch2.daily_records d = alistLookup ch.daily_records d))) := by
  intro s uid cid reps now ud ch hu hc
  rw [add_reps_found reps now hu hc]
  obtain ⟨hf1, hf2, hf3, hf4, hf5, hf6, hf7⟩ := addRepsChallenge_frame ch reps now
  refine ⟨rfl, ?_, ?_⟩
  · intro uid2 h2
    exact alistLookup_set_of_ne s uid uid2 _ h2
  · refine ⟨_, alistLookup_set_self s uid _, rfl, rfl, rfl, rfl, ?_, ?_⟩
    · intro cid2 h2
      exact alistLookup_set_of_ne ud.challenges cid cid2 _ h2
    · exact ⟨addRepsChallenge ch reps now, alistLookup_set_self ud.challenges cid _,
        hf1, hf2, hf3, hf4, hf5, hf6, hf7,
        fun d hd => addRepsChallenge_records_other ch reps now d hd⟩

/-- Witness for C10 at a concrete store: the call succeeds and an unrelated
user's entry is unchanged. -/
theorem C10_witness :
    (add_reps storePlain "u" "c1" 5 50).2 = true ∧
    alistLookup (add_reps storePlain "u" "c1" 5 50).1 "other"
      = alistLookup storePlain "other" := by
  obtain ⟨h1, h2, _⟩ := C10_add_reps_frame storePlain "u" "c1" 5 50 udPlain chPlain rfl rfl
  exact ⟨h1, h2 "other" (by decide)⟩

/-- C7: a user's reminder decisions are empty when reminders are disabled or
no challenge is active; otherwise there is exactly one line per active
challenge, classified solely by today's logged reps against the daily
target: nothing logged gives "not started" carrying the rounded daily
target, a positive amount below the target gives "in progress" carrying the
rounded remainder, and an amount at or above the target gives "goal met". -/
theorem C7_reminder_decisions (ud : UserData) (now : Int) :
    (ud.reminders_enabled = false → buildReminderDecisions ud now = []) ∧
    (ud.challenges.filter (fun p => p.2.status = ChallengeStatus.active) = [] →
      buildReminderDecisions ud now = []) ∧
    (ud.reminders_enabled = true →
      buildReminderDecisions ud now =
        (ud.challenges.filter (fun p => p.2.status = ChallengeStatus.active)).map
          (fun p => challengeReminderLine p.2 (dateOf now))) ∧
    (∀ ch : Challenge, ∀ today : String, 0 < ch.daily_target →
      (alistLookupD ch.daily_records today 0 = 0 →
        challengeReminderLine ch today =
          { exercise := ch.exercise,
            cls := ReminderClass.notStarted (roundHalfEven ch.daily_target) }) ∧
      (0 < alistLookupD ch.daily_records today 0 ∧
          ((alistLookupD ch.daily_records today 0 : Int) : ℚ) < ch.daily_target →
        challengeReminderLine ch today =
          { exercise := ch.exercise,
            cls := (ReminderClass.inProgress (roundHalfEven
              (ch.daily_target - ((alistLookupD ch.daily_records today 0 : Int) : ℚ)))) }) ∧
      (ch.daily_target ≤ ((alistLookupD ch.daily_records today 0 : Int) : ℚ) →
        challengeReminderLine ch today =
          { exercise := ch.exercise, cls := ReminderClass.goalMet })) := by
  refine ⟨?_, ?_, ?_, ?_⟩
  · intro hoff
    simp [buildReminderDecisions, hoff]
  · intro hempty
    by_cases hen : ud.reminders_enabled = false
    · simp [buildReminderDecisions, hen]
    · simp [buildReminderDecisions, hen, hempty]
  · intro hen
    have hen2 : ¬ud.reminders_enabled = false := by simp [hen]
    by_cases hempty : ud.challenges.filter (fun p => p.2.status = ChallengeStatus.active) = []
    · simp [buildReminderDecisions, hen2, hempty]
    · simp [buildReminderDecisions, hen2, hempty]
  · intro ch today htarget
    refine ⟨?_, ?_, ?_⟩
    · intro h0
      simp [challengeReminderLine, h0]
    · rintro ⟨hpos, hlt⟩
      have hne : ¬alistLookupD ch.daily_records today 0 = 0 := by omega
      simp [challengeReminderLine, hne, hlt]
    · intro hge
      have hpos : (0 : ℚ) < ((alistLookupD ch.daily_records today 0 : Int) : ℚ) :=
        lt_of_lt_of_le htarget hge
      have hne : ¬alistLookupD ch.daily_records today 0 = 0 := by
        intro h0
        rw [h0] at hpos
        simp at hpos
      have hnlt : ¬((alistLookupD ch.daily_records today 0 : Int) : ℚ) < ch.daily_target :=
        not_lt.mpr hge
      simp [challengeReminderLine, hne, hnlt]

/-- Witness for C7 at concrete data: reminders disabled gives no lines, and a
daily target of 20 with 5 reps logged today classifies as "in progress". -/
theorem C7_witness :
    buildReminderDecisions udOff 0 = [] ∧
    (0 : ℚ) < chR.daily_target ∧
    0 < alistLookupD chR.daily_records "0" 0 ∧
    ((alistLookupD chR.daily_records "0" 0 : Int) : ℚ) < chR.daily_target ∧
    challengeReminderLine chR "0" =
      { exercise := chR.exercise,
        cls := (ReminderClass.inProgress (roundHalfEven
          (chR.daily_target - ((alistLookupD chR.daily_records "0" 0 : Int) : ℚ)))) } := by
  have ht : (0 : ℚ) < chR.daily_target := by norm_num [chR]
  have hp : 0 < alistLookupD chR.daily_records "0" 0 := by decide
  have hl : ((alistLookupD chR.daily_records "0" 0 : Int) : ℚ) < chR.daily_target := by
    norm_num [chR, alistLookupD, alistLookup]
  exact ⟨(C7_reminder_decisions udOff 0).1 rfl, ht, hp, hl,
    ((C7_reminder_decisions udOff 0).2.2.2 chR "0" ht).2.1 ⟨hp, hl⟩⟩

/-- C8: the read operations are pure.  `get_challenge_progress` and
`get_active_challenges` return the store unchanged whenever the user exists;
the snapshot returned for a challenge is a function of the challenge value
and `now` alone (so two reads of the same state agree); and the reminder
decisions depend only on the profile's challenges and reminder flag. -/
theorem C8_reads_pure :
    (∀ s uid cid now ud, alistLookup s uid = some ud →
      (get_challenge_progress s uid cid now).1 = s ∧
      (get_active_challenges s uid now).1 = s) ∧
    (∀ s uid cid now ud ch, alistLookup s uid = some ud →
      alistLookup ud.challenges cid = some ch →
      (get_challenge_progress s uid cid now).2 = some (computeProgress ch now)) ∧
    (∀ ud ud2 : UserData, ∀ now : Int, ud.challenges = ud2.challenges →
      ud.reminders_enabled = ud2.reminders_enabled →
      buildReminderDecisions ud now = buildReminderDecisions ud2 now) := by
  refine ⟨?_, ?_, ?_⟩
  · intro s uid cid now ud hu
    constructor
    · simp only [get_challenge_progress, get_user_data_of_some hu]
      cases alistLookup ud.challenges cid <;> rfl
    · simp only [get_active_challenges, get_user_data_of_some hu]
  · intro s uid cid now ud ch hu hc
    simp only [get_challenge_progress, get_user_data_of_some hu, hc]
  · intro ud ud2 now hch hen
    simp only [buildReminderDecisions, hch, hen]

/-- Witness for C8 at a concrete store: both reads leave the store intact and
the snapshot is computed from the stored challenge and the instant. -/
theorem C8_witness :
    (get_challenge_progress storePlain "u" "c1" 50).1 = storePlain ∧
    (get_active_challenges storePlain "u" 50).1 = storePlain ∧
    (get_challenge_progress storePlain "u" "c1" 50).2 = some (computeProgress chPlain 50) := by
  obtain ⟨h1, h2⟩ := C8_reads_pure.1 storePlain "u" "c1" 50 udPlain rfl
  exact ⟨h1, h2, C8_reads_pure.2.1 storePlain "u" "c1" 50 udPlain chPlain rfl rfl⟩

/-- Witness for C1: on the one-create trace, logging 15 reps on the fresh
10-rep challenge leaves it completed. -/
theorem C1_witness :
    (storeChallenge (applyOp (runOps [] ops1) (Op.add "u" "PUSHUPS_0" 15 100))
        "u" "PUSHUPS_0").map Challenge.status = some ChallengeStatus.completed := by
  have hv : ∀ o ∈ ops1, validOp o := by
    intro o ho
    simp only [ops1, List.mem_singleton] at ho
    subst ho
    exact ⟨by norm_num, by norm_num⟩
  obtain ⟨ch2, hmem, hcur, hcross, hbelow⟩ :=
    (C1_status_completed_iff ops1 hv).2 "u" "PUSHUPS_0" 15 100
      (newChallenge ExerciseType.pushups 10 5 0) rfl (by norm_num)
  rw [hmem]
  simp [(hcross (by norm_num [newChallenge])).1]

/-- Witness for C2: the stored fresh challenge satisfies the sum invariant,
and folding logs of 3 and 4 reps gives cumulative and record totals of 7. -/
theorem C2_witness :
    (newChallenge ExerciseType.pushups 10 5 0).current_reps
        = valuesSum (newChallenge ExerciseType.pushups 10 5 0).daily_records ∧
    ([((3 : Int), (0 : Int)), (4, 90000)].foldl (fun c p => addRepsChallenge c p.1 p.2)
        (newChallenge ExerciseType.situps 100 10 0)).current_reps = 7 ∧
    valuesSum ([((3 : Int), (0 : Int)), (4, 90000)].foldl
        (fun c p => addRepsChallenge c p.1 p.2)
        (newChallenge ExerciseType.situps 100 10 0)).daily_records = 7 := by
  have he : runOps [] ops1 = [("u", udSample)] := rfl
  have hm : ("u", udSample) ∈ runOps [] ops1 := by
    rw [he]
    exact List.mem_singleton.mpr rfl
  have h1 := (C2_current_eq_records_sum ops1).1 ("u", udSample) hm
      ("PUSHUPS_0", newChallenge ExerciseType.pushups 10 5 0)
      (List.mem_singleton.mpr rfl)
  have h2 := (C2_current_eq_records_sum []).2 [((3 : Int), (0 : Int)), (4, 90000)]
      ExerciseType.situps 100 10 0
  refine ⟨h1, ?_, ?_⟩
  · rw [h2.1]
    decide
  · rw [h2.2]
    decide

/-- Witness for C3 at `chPlain` on its creation instant. -/
theorem C3_witness :
    chPlain.start_date ≤ 0 ∧
    ((computeProgress chPlain 0).days_elapsed = Int.fdiv (0 - chPlain.start_date) 86400 + 1 ∧
     (computeProgress chPlain 0).days_remaining = Int.fdiv (chPlain.target_date - 0) 86400 ∧
     (computeProgress chPlain 0).percentage
       = (chPlain.current_reps : ℚ) / (chPlain.total_reps : ℚ) * 100 ∧
     (computeProgress chPlain 0).actual_daily_avg
       = (chPlain.current_reps : ℚ) / (((computeProgress chPlain 0).days_elapsed : Int) : ℚ) ∧
     (computeProgress chPlain 0).needed_daily_avg
       = ((chPlain.total_reps - chPlain.current_reps : Int) : ℚ)
           / ((max (computeProgress chPlain 0).days_remaining 1 : Int) : ℚ) ∧
     (0 < (computeProgress chPlain 0).actual_daily_avg →
       (computeProgress chPlain 0).projected_date
         = some (((0 : Int) : ℚ) + ((chPlain.total_reps - chPlain.current_reps : Int) : ℚ)
             / (computeProgress chPlain 0).actual_daily_avg * 86400)) ∧
     (¬0 < (computeProgress chPlain 0).actual_daily_avg →
       (computeProgress chPlain 0).projected_date = none) ∧
     (chPlain.current_reps = 0 → (computeProgress chPlain 0).projected_date = none) ∧
     ((computeProgress chPlain 0).on_track = true ↔
       chPlain.daily_target ≤ (computeProgress chPlain 0).actual_daily_avg)) :=
  ⟨by decide, C3_progress_formulas chPlain 0 (by decide)⟩

/-- Witness for C6: the concrete creation stores a fresh challenge with zero
cumulative reps under the returned id. -/
theorem C6_witness :
    (storeChallenge (create_challenge [] "u" ExerciseType.pushups 10 5 0).1 "u"
        (create_challenge [] "u" ExerciseType.pushups 10 5 0).2).map
      Challenge.current_reps = some 0 := by
  obtain ⟨ch, hmem, hst, hcur, hrec, hsd, htd, hdt, hid⟩ :=
    C6_create_challenge_fields [] "u" ExerciseType.pushups 10 5 0 (by norm_num) (by norm_num)
  rw [hmem]
  simp [hcur]
